import Mathlib

/-!
# Verification of the `errors` package (dohernandez/errors)

Shallow embedding of `src/errors.go`: the four error variants
(`errorString`, `withMessage`, `withError`, `enrichedError`), the
constructors (`New`, `Wrap`, `WrapError`, `Enrich`, `EnrichWrapError`),
the traversal primitives (`Unwrap`, `Cause`, `Is`) and the key-value
aggregation (`keysAndValues`, `tuples.fields`, `Tuples`, `Fields`).

Go `error` values may be nil; a possibly-nil error is `Option Err`.
Go `interface{}` values attached as keys/values are modelled by `Val`
(strings and integers, the dynamic types the package's tests use).
Go map values are either a plain attached value or a slice of values
(the `malformedFields` tail), modelled by `FVal`; a `map[string]interface{}`
is modelled as an association list with overwrite-on-repeated-key
insertion (`mapInsert`), matching Go map assignment.
-/

namespace GoErrors

/-- A loosely-typed value attached to an error (Go `interface{}` in a
key-value list): a string or an integer. -/
inductive Val where
  | str : String → Val
  | int : Int → Val
deriving DecidableEq, Repr

/-- A value stored in a `map[string]interface{}` produced by `fields`:
either a single attached value, or a slice of values (the tail stored
under `"malformedFields"`). -/
inductive FVal where
  | val : Val → FVal
  | arr : List Val → FVal
deriving DecidableEq, Repr

/-- A Go `map[string]interface{}`, as an association list; insertion is
`mapInsert` (overwrite on repeated key), lookup is `mapLookup`. -/
abbrev GoMap := List (String × FVal)

/-- Go map assignment `m[k] = v`: overwrite the binding of `k` if present,
otherwise add it. -/
def mapInsert : GoMap → String → FVal → GoMap
  | [], k, v => [(k, v)]
  | (k', v') :: rest, k, v =>
      if k' = k then (k, v) :: rest else (k', v') :: mapInsert rest k v

/-- Go map read `m[k]`: the value bound to `k`, if any. -/
def mapLookup : GoMap → String → Option FVal
  | [], _ => none
  | (k', v') :: rest, k => if k' = k then some v' else mapLookup rest k

/-- The error variants of the package, plus `foreign` for an error value
from outside the package (it exposes a message but has no `Is`, `Unwrap`
or `Cause` method, e.g. `context.Canceled`).  Structural equality of
`Err` stands in for Go interface-value equality (`==`). -/
inductive Err where
  /-- `errorString` (errors.go:7): a message, no cause. -/
  | errorString : String → Err
  /-- `withMessage` (errors.go:38): precomputed full message and the
  original error. -/
  | withMessage : String → Err → Err
  /-- `withError` (errors.go:84): precomputed full message, the supplied
  (sentinel) error, and the original cause. -/
  | withError : String → Err → Err → Err
  /-- `enrichedError` (errors.go:208): the inner error and the local
  key-value tuples. -/
  | enrichedError : Err → List Val → Err
  /-- An error value from outside the package, carrying only a message. -/
  | foreign : String → Err
deriving DecidableEq, Repr

namespace Err

/-- The `Error()` method of each variant: `errorString`, `withMessage`
and `withError` return their stored message (errors.go:12, 44, 94);
`enrichedError` delegates to the inner error (errors.go:214);
a foreign error returns its own message. -/
def Error : Err → String
  | .errorString message => message
  | .withMessage message _ => message
  | .withError message _ _ => message
  | .enrichedError err _ => Error err
  | .foreign message => message

end Err

/-- `New` (errors.go:17): an error with the supplied message without
cause.  (`Newf` formats the message first and then builds the same node.) -/
def New (message : String) : Err :=
  .errorString message

/-- `Wrap` (errors.go:56): if err is nil return nil, else build a
`withMessage` node whose message is `"{message}: {err}"` and whose
inner error is the original err. -/
def Wrap (err : Option Err) (message : String) : Option Err :=
  match err with
  | none => none
  | some e => some (.withMessage (message ++ ": " ++ e.Error) e)

/-- `WrapError` (errors.go:113): if err is nil return supplied; if
supplied is nil return err; else build a `withError` node with message
`"{supplied}: {err}"`, unwrap target `supplied` and cause `err`. -/
def WrapError (err : Option Err) (supplied : Option Err) : Option Err :=
  match err with
  | none => supplied
  | some e =>
    match supplied with
    | none => some e
    | some s => some (.withError (s.Error ++ ": " ++ e.Error) s e)

/-- `Enrich` (errors.go:264): if err is nil return nil; if the key-value
list has odd length return err unchanged; else build an `enrichedError`
node carrying the list. -/
def Enrich (err : Option Err) (keysAndValues : List Val) : Option Err :=
  match err with
  | none => none
  | some e =>
    if keysAndValues.length % 2 ≠ 0 then some e
    else some (.enrichedError e keysAndValues)

/-- `EnrichWrapError` (errors.go:282): `Enrich(WrapError(err, supplied), keysAndValues...)`. -/
def EnrichWrapError (err : Option Err) (supplied : Option Err)
    (keysAndValues : List Val) : Option Err :=
  Enrich (WrapError err supplied) keysAndValues

/-- Modelled from the spec: the package-level `Unwrap` re-exported from
the standard library (the re-exporting file is not under src/).  Spec
§4.5: "returns the error's declared inner error if it exposes one, else
absent".  `withMessage` unwraps to its inner error (errors.go:49),
`withError` to the supplied error (errors.go:99), `enrichedError` to the
inner error (errors.go:219); `errorString` and foreign errors expose no
unwrap. -/
def Unwrap : Err → Option Err
  | .withMessage _ err => some err
  | .withError _ err _ => some err
  | .enrichedError err _ => some err
  | _ => none

/-- `Cause` (errors.go:157): capability-based lookup — type-assert the
error to the `causer` interface and return its `Cause()`, else nil.
Only `withError` has a `Cause()` method (errors.go:104), returning the
stored cause. -/
def Cause : Err → Option Err
  | .withError _ _ cause => some cause
  | _ => none

/-- `errorString.Is` (errors.go:34): equivalent if the message is
identical to the target's message. -/
def errorStringIs (message : String) (err : Err) : Bool :=
  message = err.Error

/-- Single-step unwrap strictly shrinks the node. -/
theorem sizeOf_lt_of_unwrap {e u : Err} (h : Unwrap e = some u) :
    sizeOf u < sizeOf e := by
  cases e with
  | errorString m => simp [Unwrap] at h
  | withMessage m inner =>
      simp only [Unwrap, Option.some.injEq] at h
      subst h; simp only [Err.withMessage.sizeOf_spec]; omega
  | withError m s c =>
      simp only [Unwrap, Option.some.injEq] at h
      subst h; simp only [Err.withError.sizeOf_spec]; omega
  | enrichedError inner kv =>
      simp only [Unwrap, Option.some.injEq] at h
      subst h; simp only [Err.enrichedError.sizeOf_spec]; omega
  | foreign m => simp [Unwrap] at h

/-- The cause edge strictly shrinks the node. -/
theorem sizeOf_lt_of_cause {e c : Err} (h : Cause e = some c) :
    sizeOf c < sizeOf e := by
  cases e with
  | errorString m => simp [Cause] at h
  | withMessage m inner => simp [Cause] at h
  | withError m s c' =>
      simp only [Cause, Option.some.injEq] at h
      subst h; simp only [Err.withError.sizeOf_spec]; omega
  | enrichedError inner kv => simp [Cause] at h
  | foreign m => simp [Cause] at h

/-- Every `Err` node has positive size. -/
theorem err_sizeOf_pos (e : Err) : 0 < sizeOf e := by
  cases e <;>
    simp only [Err.errorString.sizeOf_spec, Err.withMessage.sizeOf_spec,
      Err.withError.sizeOf_spec, Err.enrichedError.sizeOf_spec,
      Err.foreign.sizeOf_spec] <;>
    omega

mutual

/-- Modelled from the spec: the package-level `Is` re-exported from the
standard library (the re-exporting file is not under src/).  Spec §4.5
and §6: walk the unwrap chain from `err`; at each node, the node is
equivalent to `target` if it equals it, or if its own `Is` method (when
it has one) accepts `target`; otherwise follow the single-step unwrap
edge and continue, failing when the chain ends. -/
def Is (err target : Err) : Bool :=
  if err = target then true
  else if errIsMethod err target then true
  else
    match h : Unwrap err with
    | none => false
    | some u => Is u target
termination_by (sizeOf err, 2)
decreasing_by
  · exact Prod.Lex.right (sizeOf err) (by omega)
  · exact Prod.Lex.left _ _ (sizeOf_lt_of_unwrap h)

/-- Dispatch to the node's own `Is` method: `errorString` (errors.go:34)
and `withError` (errors.go:133) have one; the other variants do not. -/
def errIsMethod (err target : Err) : Bool :=
  match err with
  | .errorString message => errorStringIs message target
  | .withError _ supplied cause => withErrorIs supplied cause target
  | _ => false
termination_by (sizeOf err, 1)
decreasing_by
  · exact Prod.Lex.left _ _
      (by simp only [Err.withError.sizeOf_spec]; omega)

/-- `withError.Is` (errors.go:133): true when `Is(we.err, target)` holds,
else test `Is(cause, target)` for the node's cause (`Cause` on a
`withError` node is always the stored cause, see `cause_withError`). -/
def withErrorIs (supplied cause target : Err) : Bool :=
  if Is supplied target then true
  else Is cause target
termination_by (sizeOf supplied + sizeOf cause, 0)
decreasing_by
  · exact Prod.Lex.left _ _ (by have := err_sizeOf_pos cause; omega)
  · exact Prod.Lex.left _ _ (by have := err_sizeOf_pos supplied; omega)

end

/-- `Cause` on a `withError` node yields the stored cause (justifies the
`withErrorIs` translation of the `Cause(we)` call in errors.go:138). -/
theorem cause_withError (m : String) (s c : Err) :
    Cause (.withError m s c) = some c := rfl

/-- The local `keysAndValues` field of an `enrichedError` node; other
variants carry no such field.  This is the `err.(*enrichedError)` type
assertion step of errors.go:232. -/
def localKV : Err → List Val
  | .enrichedError _ kv => kv
  | _ => []

/-- `keysAndValues` (errors.go:228): collect the node's local tuples if
it is an `enrichedError`; then, if the node unwraps, append the tuples
collected from the unwrap target, and — only then — if the node exposes
a cause, append the tuples collected from the cause. -/
def keysAndValues (err : Err) : List Val :=
  let kv := localKV err
  match h : Unwrap err with
  | none => kv
  | some uErr =>
    let kv2 := kv ++ keysAndValues uErr
    match h2 : Cause err with
    | none => kv2
    | some cause => kv2 ++ keysAndValues cause
termination_by sizeOf err
decreasing_by
  · exact sizeOf_lt_of_unwrap h
  · exact sizeOf_lt_of_cause h2

/-- `enrichedError.Tuples` (errors.go:224): `keysAndValues(ee)`. -/
def Tuples (ee : Err) : List Val :=
  keysAndValues ee

/-- An `errorString` node contributes no tuples. -/
@[simp] theorem keysAndValues_errorString (m : String) :
    keysAndValues (.errorString m) = [] := by
  unfold keysAndValues; rfl

/-- A foreign error contributes no tuples. -/
@[simp] theorem keysAndValues_foreign (m : String) :
    keysAndValues (.foreign m) = [] := by
  unfold keysAndValues; rfl

/-- A `withMessage` node contributes the tuples of its inner error. -/
@[simp] theorem keysAndValues_withMessage (m : String) (inner : Err) :
    keysAndValues (.withMessage m inner) = keysAndValues inner := by
  rw [keysAndValues]
  simp [Unwrap, Cause, localKV]

/-- A `withError` node contributes the tuples of the supplied error,
then the tuples of the cause. -/
@[simp] theorem keysAndValues_withError (m : String) (s c : Err) :
    keysAndValues (.withError m s c) = keysAndValues s ++ keysAndValues c := by
  rw [keysAndValues]
  simp [Unwrap, Cause, localKV]

/-- An `enrichedError` node contributes its local tuples, then the
tuples of its inner error. -/
@[simp] theorem keysAndValues_enrichedError (inner : Err) (kv : List Val) :
    keysAndValues (.enrichedError inner kv) = kv ++ keysAndValues inner := by
  rw [keysAndValues]
  simp [Unwrap, Cause, localKV]

/-- The loop of `tuples.fields` (errors.go:187): `label` is the pending
key ("" when a key is expected), `result` the map built so far.  At each
element: when a key is expected, a non-string or empty-string element
puts the whole remaining tail under `"malformedFields"` and stops;
otherwise the element becomes the pending key.  When a key is pending,
the element is stored under it and the pending key is cleared.  After
the loop, a still-pending key is stored as the singleton slice
`{label}` under `"malformedFields"` (errors.go:201). -/
def fieldsLoop : List Val → String → GoMap → GoMap
  | [], label, result =>
      if label ≠ "" then
        mapInsert result "malformedFields" (.arr [.str label])
      else result
  | l :: rest, label, result =>
      if label = "" then
        match l with
        | .str s =>
            if s = "" then
              mapInsert result "malformedFields" (.arr (l :: rest))
            else fieldsLoop rest s result
        | _ => mapInsert result "malformedFields" (.arr (l :: rest))
      else fieldsLoop rest "" (mapInsert result label (.val l))

/-- `tuples.fields` (errors.go:175): nil (empty map) on an empty tuple
list, else run the pairing loop with no pending key and an empty map. -/
def tuplesFields (t : List Val) : GoMap :=
  if t.length = 0 then []
  else fieldsLoop t "" []

/-- `enrichedError.Fields` (errors.go:254): `ee.keysAndValues.fields()` —
the pairing is applied to the node's local tuples field. -/
def Fields (ee : Err) : GoMap :=
  tuplesFields (localKV ee)

/-- Spec-side pairing, following the words of the specification: pair up
the flat sequence two elements at a time; as soon as a value appears
without a preceding valid non-empty string key, place the entire
remaining tail under the reserved `"malformedFields"` key; place a lone
trailing key under `"malformedFields"` likewise (as the singleton tail). -/
def specFieldsAux : GoMap → List Val → GoMap
  | acc, [] => acc
  | acc, .str k :: v :: rest =>
      if k = "" then
        mapInsert acc "malformedFields" (.arr (.str k :: v :: rest))
      else specFieldsAux (mapInsert acc k (.val v)) rest
  | acc, [.str k] => mapInsert acc "malformedFields" (.arr [.str k])
  | acc, l :: rest => mapInsert acc "malformedFields" (.arr (l :: rest))

/-- Spec-side pairing of a whole flat key-value sequence into a mapping. -/
def specFields (t : List Val) : GoMap :=
  specFieldsAux [] t

/-- The label-state loop of `tuples.fields`, started with no pending
key, computes exactly the two-at-a-time pairing of the sequence. -/
theorem fieldsLoop_eq_specAux (t : List Val) (acc : GoMap) :
    fieldsLoop t "" acc = specFieldsAux acc t := by
  induction acc, t using specFieldsAux.induct with
  | case1 acc => simp [fieldsLoop, specFieldsAux]
  | case2 acc v rest => simp [fieldsLoop, specFieldsAux]
  | case3 acc k v rest hk ih =>
      simp only [fieldsLoop, specFieldsAux, hk, if_false, if_neg hk]
      simpa [fieldsLoop, hk] using ih
  | case4 acc k =>
      by_cases hk : k = "" <;> simp [fieldsLoop, specFieldsAux, hk]
  | case5 acc l rest h1 h2 =>
      cases l with
      | str k =>
          exfalso
          cases rest with
          | nil => exact h2 k rfl rfl
          | cons v r => exact h1 k v r rfl rfl
      | int n => simp [fieldsLoop, specFieldsAux]

/-- `Is` is reflexive: the interface-equality check at the head of the
unwrap walk accepts the target itself. -/
theorem Is_refl (e : Err) : Is e e = true := by
  rw [Is]; simp

/-!
## Claim theorems
-/

/-- Claim C1, counterexample: `Fields` does not pair up the aggregated
`Tuples` sequence.  For the doubly enriched error
`Enrich(Enrich(New "failed", "id", 5), "n", 6)`, the aggregated sequence
is `["n", 6, "id", 5]`, whose pairing binds `"id"`; but `Fields` returns
only the pairing of the node's local list `["n", 6]`, with no binding
for `"id"`. -/
theorem fields_ignores_chain_counterexample :
    mapLookup (Fields (Err.enrichedError
      (Err.enrichedError (New "failed") [.str "id", .int 5])
      [.str "n", .int 6])) "id" = none ∧
    Tuples (Err.enrichedError
      (Err.enrichedError (New "failed") [.str "id", .int 5])
      [.str "n", .int 6]) = [.str "n", .int 6, .str "id", .int 5] ∧
    mapLookup (tuplesFields
      [.str "n", .int 6, .str "id", .int 5]) "id" = some (.val (.int 5)) := by
  refine ⟨by decide, ?_, by decide⟩
  simp [Tuples, New]

/-- Claim C1, amended: for every enriched error, `Fields()` returns the
key→value mapping obtained by pairing up the node's own local key-value
list (`ee.keysAndValues`) — not the aggregated `Tuples` sequence — where
as soon as a value appears without a preceding valid non-empty string
key, the entire remaining tail of the list is placed under the single
reserved key `"malformedFields"` instead of being paired normally (a
lone trailing key is likewise placed under `"malformedFields"`). -/
theorem fields_pairs_local_tuples (inner : Err) (kv : List Val) :
    Fields (.enrichedError inner kv) = specFields kv := by
  unfold Fields localKV tuplesFields specFields
  cases kv with
  | nil => rfl
  | cons l rest =>
      simp only [List.length_cons, Nat.succ_ne_zero, if_false]
      exact fieldsLoop_eq_specAux _ _

/-- Claim C2: for non-nil `e`, `s`, `Is(WrapError(e, s), t)` holds
whenever the supplied error `s` matches `t` or the cause `e` matches `t`;
in particular it holds for `t = e` and `t = s`; and for a chain of two
nested `WrapError` calls with a foreign error as the innermost cause,
`Is` holds against both sentinels and against that innermost cause. -/
theorem is_wrapError_matches_supplied_and_cause :
    (∀ e s t : Err, Is s t = true ∨ Is e t = true →
        ∀ w, WrapError (some e) (some s) = some w → Is w t = true) ∧
    (∀ e s : Err, ∃ w, WrapError (some e) (some s) = some w ∧
        Is w e = true ∧ Is w s = true) ∧
    (∃ w, WrapError (WrapError (some (Err.foreign "context canceled"))
        (some (New "failed"))) (some (New "oops")) = some w ∧
      Is w (New "failed") = true ∧ Is w (New "oops") = true ∧
      Is w (Err.foreign "context canceled") = true) := by
  refine ⟨?_, ?_, ?_⟩
  · intro e s t h w hw
    simp only [WrapError, Option.some.injEq] at hw
    subst hw
    rw [Is]
    rcases h with h | h <;> simp [errIsMethod, withErrorIs, h]
  · intro e s
    refine ⟨_, rfl, ?_, ?_⟩
    · rw [Is]; simp [errIsMethod, withErrorIs, Is_refl]
    · rw [Is]; simp [errIsMethod, withErrorIs, Is_refl]
  · refine ⟨_, rfl, ?_, ?_, ?_⟩ <;>
      simp [Is, errIsMethod, withErrorIs, errorStringIs, Err.Error, Unwrap, New]

/-- Witness for C2 at a concrete input: the supplied sentinel matches
itself through the wrap node. -/
theorem is_wrapError_matches_witness :
    Is (Err.withError "oops: failed" (New "oops") (New "failed"))
      (New "oops") = true :=
  is_wrapError_matches_supplied_and_cause.1 (New "failed") (New "oops")
    (New "oops") (Or.inl (Is_refl (New "oops"))) _ rfl

/-- Claim C3: `keysAndValues` lists the node's local pairs first, then
the pairs collected through the single-step unwrap edge, then the pairs
collected through the cause edge last; consequently re-enriching puts
the newer pairs before the older ones:
`Enrich(Enrich(New "failed", "id", 5), "n", 6, "h", "0X0").Tuples()`
is `["n", 6, "h", "0X0", "id", 5]`. -/
theorem tuples_order_local_unwrap_cause :
    (∀ err : Err, keysAndValues err =
        localKV err ++ (Unwrap err).elim []
          (fun u => keysAndValues u ++ (Cause err).elim [] keysAndValues)) ∧
    (Enrich (Enrich (some (New "failed")) [.str "id", .int 5])
        [.str "n", .int 6, .str "h", .str "0X0"] =
      some (Err.enrichedError
        (Err.enrichedError (New "failed") [.str "id", .int 5])
        [.str "n", .int 6, .str "h", .str "0X0"]) ∧
     Tuples (Err.enrichedError
        (Err.enrichedError (New "failed") [.str "id", .int 5])
        [.str "n", .int 6, .str "h", .str "0X0"]) =
      [.str "n", .int 6, .str "h", .str "0X0", .str "id", .int 5]) := by
  refine ⟨?_, by decide, by simp [Tuples, New]⟩
  intro err
  cases err <;> simp [localKV, Unwrap, Cause]

/-- Claim C4: the four-case absence policy of `WrapError`: a nil cause
returns the supplied error itself; a nil supplied error returns the
cause itself; two nils return nil; two non-nil errors build the
composite node. -/
theorem wrapError_absence_policy :
    (∀ s : Err, WrapError none (some s) = some s) ∧
    (∀ e : Err, WrapError (some e) none = some e) ∧
    WrapError none none = none ∧
    (∀ e s : Err, WrapError (some e) (some s) =
      some (.withError (s.Error ++ ": " ++ e.Error) s e)) :=
  ⟨fun _ => rfl, fun _ => rfl, rfl, fun _ _ => rfl⟩

/-- Claim C5: for non-nil `e`, `s`, the node built by `WrapError(e, s)`
has message `"{supplied}: {err}"`, unwraps in one step to the supplied
error `s`, and its cause-lookup returns the original error `e`. -/
theorem wrapError_node_contract (e s : Err) :
    ∃ w, WrapError (some e) (some s) = some w ∧
      w.Error = s.Error ++ ": " ++ e.Error ∧
      Unwrap w = some s ∧ Cause w = some e :=
  ⟨_, rfl, rfl, rfl, rfl⟩

/-- Claim C6: for a non-nil error, `Wrap(err, msg)` returns an error
with message `msg ++ ": " ++ err.Error()` whose single-step unwrap is
the very same inner error; `Wrap(nil, msg)` returns nil. -/
theorem wrap_contract :
    (∀ (e : Err) (m : String), ∃ w, Wrap (some e) m = some w ∧
        w.Error = m ++ ": " ++ e.Error ∧ Unwrap w = some e) ∧
    (∀ m : String, Wrap none m = none) :=
  ⟨fun _ _ => ⟨_, rfl, rfl, rfl⟩, fun _ => rfl⟩

/-- Claim C7: enriching a non-nil error with an odd-length key-value
list returns the original error itself unchanged (no node is created,
no error raised), while enriching nil returns nil. -/
theorem enrich_validation :
    (∀ (e : Err) (kvs : List Val), kvs.length % 2 = 1 →
        Enrich (some e) kvs = some e) ∧
    (∀ kvs : List Val, Enrich none kvs = none) := by
  refine ⟨?_, fun _ => rfl⟩
  intro e kvs h
  simp [Enrich, h]

/-- Witness for C7 at a concrete input: a one-element list declines
enrichment and hands back the input error. -/
theorem enrich_validation_witness :
    Enrich (some (New "failed")) [.str "k"] = some (New "failed") :=
  enrich_validation.1 (New "failed") [.str "k"] (by decide)

/-- Claim C8: for a non-nil error and an even-length key-value list,
the enriched error returned by `Enrich` keeps the inner error's message
unchanged and unwraps in one step to the original inner error. -/
theorem enrich_even_contract (e : Err) (kvs : List Val)
    (h : kvs.length % 2 = 0) :
    Enrich (some e) kvs = some (.enrichedError e kvs) ∧
    (Err.enrichedError e kvs).Error = e.Error ∧
    Unwrap (.enrichedError e kvs) = some e := by
  refine ⟨?_, rfl, rfl⟩
  simp [Enrich, h]

/-- Witness for C8 at a concrete input. -/
theorem enrich_even_contract_witness :
    Enrich (some (New "failed")) [.str "id", .int 5] =
      some (.enrichedError (New "failed") [.str "id", .int 5]) ∧
    (Err.enrichedError (New "failed") [.str "id", .int 5]).Error =
      (New "failed").Error ∧
    Unwrap (.enrichedError (New "failed") [.str "id", .int 5]) =
      some (New "failed") :=
  enrich_even_contract (New "failed") [.str "id", .int 5] (by decide)

/-- Claim C9: `EnrichWrapError(err, supplied, pairs...)` returns exactly
`Enrich(WrapError(err, supplied), pairs...)`; in particular
`EnrichWrapError(New "failed", New "oops", "id", 5)` has message
`"oops: failed"`, satisfies `Is` against both the `"failed"` and
`"oops"` errors, and its `Tuples()` is `["id", 5]`. -/
theorem enrichWrapError_composition :
    (∀ (err supplied : Option Err) (kvs : List Val),
        EnrichWrapError err supplied kvs = Enrich (WrapError err supplied) kvs) ∧
    (EnrichWrapError (some (New "failed")) (some (New "oops"))
        [.str "id", .int 5] =
      some (Err.enrichedError
        (Err.withError "oops: failed" (New "oops") (New "failed"))
        [.str "id", .int 5]) ∧
     (Err.enrichedError (Err.withError "oops: failed" (New "oops")
        (New "failed")) [.str "id", .int 5]).Error = "oops: failed" ∧
     Is (Err.enrichedError (Err.withError "oops: failed" (New "oops")
        (New "failed")) [.str "id", .int 5]) (New "failed") = true ∧
     Is (Err.enrichedError (Err.withError "oops: failed" (New "oops")
        (New "failed")) [.str "id", .int 5]) (New "oops") = true ∧
     Tuples (Err.enrichedError (Err.withError "oops: failed" (New "oops")
        (New "failed")) [.str "id", .int 5]) = [.str "id", .int 5]) := by
  refine ⟨fun _ _ _ => rfl, by decide, rfl, ?_, ?_, by simp [Tuples, New]⟩ <;>
    simp [Is, errIsMethod, withErrorIs, errorStringIs, Err.Error, Unwrap, New]

/-- Claim C10: `New(m).Error() == m`, and equivalence of plain errors is
message-string equality: `Is(New a, New b)` holds exactly when `a == b`. -/
theorem new_plain_error_contract :
    (∀ m : String, (New m).Error = m) ∧
    (∀ a b : String, Is (New a) (New b) = (a == b)) := by
  refine ⟨fun m => rfl, fun a b => ?_⟩
  rw [Is]
  by_cases h : a = b
  · subst h; simp
  · simp [errIsMethod, errorStringIs, Err.Error, New, Unwrap, h]

end GoErrors
